import Mathlib

set_option maxRecDepth 8000

/-!
Shallow embedding of the 3D-printing analytics application
(`src/server/server-mongodb.js` and `src/client/js/app-fixed.js`).

Conventions used throughout:
* JSON numbers are `ℚ`; JavaScript `NaN` (and other non-finite results) are
  `Option.none` wherever an arithmetic result can be non-finite;
* Mongo `_id` values are `Nat`; all times live on one clock in seconds;
* every fallible handler returns an `ApiResponse`, mirroring the server's
  HTTP envelope taxonomy (200 / 201 / 400 / 401 / 404 / 500).
-/

namespace PrintAnalytics

/-- HTTP response envelope taxonomy of `server-mongodb.js`: 200 ok,
201 created, 400 with field-level details, 400 with a plain message,
401 authorization error, 404 not-found, 500 internal error. -/
inductive ApiResponse (α : Type) where
  | ok (x : α)
  | createdR (x : α)
  | validationError (details : List String)
  | badRequest (msg : String)
  | authError (msg : String)
  | notFound (msg : String)
  | serverError (msg : String)
deriving DecidableEq

/-- True exactly on the 400-with-details constructor. -/
def ApiResponse.isValidationErr {α : Type} : ApiResponse α → Bool
  | .validationError _ => true
  | _ => false

/-- True exactly on the 401 constructor. -/
def ApiResponse.isAuthErr {α : Type} : ApiResponse α → Bool
  | .authError _ => true
  | _ => false

/-- The `String.prototype.trim` call of the validators, implemented over the
character list so that it evaluates by `decide`. -/
def jsTrim (s : String) : String :=
  ⟨((s.toList.dropWhile Char.isWhitespace).reverse.dropWhile Char.isWhitespace).reverse⟩

/-- Split a character list on a separator character (the `String.split`
shape used by the email and date checks). -/
def splitOnChar (sep : Char) : List Char → List (List Char)
  | [] => [[]]
  | c :: cs =>
      let r := splitOnChar sep cs
      if c == sep then [] :: r
      else
        match r with
        | [] => [[c]]
        | h :: t => (c :: h) :: t

/-- Numeric value of a list of decimal digit characters; `none` as soon as a
non-digit appears. The empty list yields 0 (callers check emptiness). -/
def digitsVal (l : List Char) : Option Nat :=
  l.foldl
    (fun acc c =>
      match acc with
      | none => none
      | some n => if c.isDigit then some (10 * n + (c.toNat - 48)) else none)
    (some 0)

/-- Split a character list at the first dot. -/
def splitDot : List Char → List Char × List Char
  | [] => ([], [])
  | '.' :: cs => ([], cs)
  | c :: cs => let p := splitDot cs; (c :: p.1, p.2)

/-- A finite JavaScript number as `ToNumber` produces it from a decimal
string: the value is `num / 10 ^ exp` (not normalised). `NaN` is
`Option.none` at every use site. -/
structure DecNum where
  num : Int
  exp : Nat
deriving DecidableEq

/-- The rational value of a `DecNum`. -/
def DecNum.val (a : DecNum) : ℚ := (a.num : ℚ) / 10 ^ a.exp

/-- JavaScript subtraction on finite numbers. -/
def DecNum.sub (a b : DecNum) : DecNum :=
  ⟨a.num * 10 ^ b.exp - b.num * 10 ^ a.exp, a.exp + b.exp⟩

/-- JavaScript multiplication on finite numbers. -/
def DecNum.mul (a b : DecNum) : DecNum := ⟨a.num * b.num, a.exp + b.exp⟩

/-- Whether the value is a (mathematical) integer. -/
def DecNum.isInt (a : DecNum) : Bool := a.num % ((10 : Int) ^ a.exp) == 0

/-- Whether the value is non-negative. -/
def DecNum.nonneg (a : DecNum) : Bool := 0 ≤ a.num

/-- The integer value (exact when `isInt`). -/
def DecNum.toInt (a : DecNum) : Int := a.num / ((10 : Int) ^ a.exp)

/-- JavaScript `ToNumber` on a string — the coercion performed by
`limit * 1` and `(page - 1) * limit` in the list handlers. `none` models
`NaN`. Covers the decimal forms those expressions can meet: optional sign,
integer digits, optional fractional digits; the empty (or all-blank)
string coerces to 0. -/
def toNumber (s : String) : Option DecNum :=
  let t := jsTrim s
  if t.isEmpty then some ⟨0, 0⟩ else
  let signed : Bool × List Char :=
    match t.toList with
    | '-' :: cs => (true, cs)
    | '+' :: cs => (false, cs)
    | cs => (false, cs)
  let p := splitDot signed.2
  if p.1.isEmpty && p.2.isEmpty then none else
  match digitsVal p.1, digitsVal p.2 with
  | some i, some f =>
      let m : Int := (i : Int) * 10 ^ p.2.length + (f : Int)
      some ⟨if signed.1 then -m else m, p.2.length⟩
  | _, _ => none

/-- JavaScript `parseInt` on a string (used for the `page` / `limit` echo
fields of the pagination object): skip blanks, optional sign, then the
longest prefix of digits; `none` models `NaN`. -/
def parseIntJS (s : String) : Option Int :=
  let signed : Bool × List Char :=
    match (jsTrim s).toList with
    | '-' :: cs => (true, cs)
    | '+' :: cs => (false, cs)
    | cs => (false, cs)
  let ds := signed.2.takeWhile Char.isDigit
  if ds.isEmpty then none
  else (digitsVal ds).map fun n => if signed.1 then -(n : Int) else (n : Int)

/-- JavaScript subtraction with NaN propagation. -/
def jsub : Option DecNum → Option DecNum → Option DecNum
  | some a, some b => some (a.sub b)
  | _, _ => none

/-- JavaScript multiplication with NaN propagation. -/
def jmul : Option DecNum → Option DecNum → Option DecNum
  | some a, some b => some (a.mul b)
  | _, _ => none

/-- Numeric view of an optional query-string parameter whose destructuring
default is the number `d` (`const { page = 1, limit = 100 } = req.query`). -/
def qnum (p : Option String) (d : Nat) : Option DecNum :=
  match p with
  | none => some ⟨d, 0⟩
  | some s => toNumber s

/-- A persisted document: Mongo `_id` (modelled as `Nat`), the stored
document body, and the server-assigned timestamps. -/
structure Stored (α : Type) where
  id : Nat
  doc : α
  createdAt : Int
  updatedAt : Int
deriving DecidableEq

/-- The ordering realised by `.sort({ createdAt: -1 })` (newest first). -/
def createdGe {α : Type} (a b : Stored α) : Prop := b.createdAt ≤ a.createdAt

/-- The ordering realised by `.sort({ createdAt: 1 })` (oldest first). -/
def createdLe {α : Type} (a b : Stored α) : Prop := a.createdAt ≤ b.createdAt

instance {α : Type} : DecidableRel (@createdGe α) := fun a b =>
  inferInstanceAs (Decidable (b.createdAt ≤ a.createdAt))

instance {α : Type} : DecidableRel (@createdLe α) := fun a b =>
  inferInstanceAs (Decidable (a.createdAt ≤ b.createdAt))

instance {α : Type} : IsTotal (Stored α) createdGe :=
  ⟨fun a b => le_total b.createdAt a.createdAt⟩

instance {α : Type} : IsTrans (Stored α) createdGe :=
  ⟨fun _ _ _ hab hbc => le_trans hbc hab⟩

/-- Result list of `find().sort(s).limit(l).skip(k)` applied to the (already
sorted) collection. `none` models the query failing inside MongoDB — which
happens when the computed skip is `NaN`, negative or fractional, or the
computed limit is `NaN` or fractional. A limit of 0 means "no limit" and a
negative limit returns a single batch of that many documents, as in MongoDB. -/
def mongoPage {α : Type} (docs : List α) (l k : Option DecNum) : Option (List α) :=
  match l, k with
  | some lq, some kq =>
      if kq.isInt && kq.nonneg && lq.isInt then
        let body := docs.drop kq.toInt.toNat
        some (if lq.num == 0 then body else body.take lq.toInt.natAbs)
      else none
  | _, _ => none

/-- Pagination object returned by the list endpoints
(`page: parseInt(page), limit: parseInt(limit), total, pages:
Math.ceil(total / limit)`); `none` components are the JSON `null` that
`NaN` / `Infinity` serialise to. -/
structure Pagination where
  page : Option Int
  limit : Option Int
  total : Nat
  pages : Option Int
deriving DecidableEq

/-- Payload of a successful list response. -/
structure ListPayload (α : Type) where
  data : List (Stored α)
  pagination : Pagination
deriving DecidableEq

/-- Integer ceiling of `a / b`, written with Euclidean division so that it
evaluates by `decide`; agrees with `Math.ceil` of the exact quotient for
every positive `b` (the only divisors the pagination claims are about). -/
def ceilDivInt (a b : Int) : Int := -((-a) / b)

/-- The `pages: Math.ceil(total / limit)` computation, where `limit` is the
raw query value (string) or the numeric default 100. Division by 0 gives
`Infinity`/`NaN`, i.e. JSON `null`. -/
def pagesCount (total : Nat) (limitP : Option String) : Option Int :=
  match qnum limitP 100 with
  | none => none
  | some lq =>
      if lq.num == 0 then none
      else some (ceilDivInt ((total : Int) * 10 ^ lq.exp) lq.num)

/-- The `page: parseInt(page)` echo (default is the number 1). -/
def pageEcho (p : Option String) : Option Int :=
  match p with
  | none => some 1
  | some s => parseIntJS s

/-- The `limit: parseInt(limit)` echo (default is the number 100). -/
def limitEcho (p : Option String) : Option Int :=
  match p with
  | none => some 100
  | some s => parseIntJS s

/-- Shared body of the three list handlers: slice the sorted collection with
`limit(limit * 1).skip((page - 1) * limit)`, counting `total` documents; a
database failure is caught and turned into a 500 with message `msg`. The
handler has no validation branch for `page` / `limit`. -/
def paginate {α : Type} (sorted : List (Stored α)) (total : Nat)
    (pageP limitP : Option String) (msg : String) : ApiResponse (ListPayload α) :=
  let l := jmul (qnum limitP 100) (some ⟨1, 0⟩)
  let k := jmul (jsub (qnum pageP 1) (some ⟨1, 0⟩)) (qnum limitP 100)
  match mongoPage sorted l k with
  | none => ApiResponse.serverError msg
  | some docs =>
      ApiResponse.ok ⟨docs, ⟨pageEcho pageP, limitEcho limitP, total, pagesCount total limitP⟩⟩

/-- The seven location quantity counters of `recordSchema.quantities`. -/
structure Quantities where
  bng : Int
  sampling : Int
  rcc : Int
  rd : Int
  kaa : Int
  bom : Int
  other : Int
deriving DecidableEq

/-- Sum of the seven location counters. -/
def sumQuantities (q : Quantities) : Int :=
  q.bng + q.sampling + q.rcc + q.rd + q.kaa + q.bom + q.other

/-- A Job record as submitted in a request body (the client-side `record`
object of `saveRecord`). `totalQuantity` is `Int` because the only check the
server runs on it is `isInt({ min: 1 })`; money and time fields are JSON
numbers. -/
structure JobInput where
  date : String
  projectName : String
  partType : String
  partSize : String
  partName : String
  application : String
  sharepointLink : String
  materialUsed : String
  machineName : String
  printingTimeMins : ℚ
  printingTimeHrs : ℚ
  printPrice : ℚ
  electricityCost : ℚ
  printCost : ℚ
  oemCost : ℚ
  savingsPerProduct : ℚ
  status : String
  category : String
  quantities : Quantities
  totalQuantity : Int
  totalSavings : ℚ
  image : Option String
deriving DecidableEq

/-- The `isLength({ min: lo, max: hi })` check after `.trim()`. -/
def lenBetween (lo hi : Nat) (s : String) : Bool :=
  lo ≤ (jsTrim s).length && (jsTrim s).length ≤ hi

/-- Status enumeration of `recordSchema.status`. -/
def recordStatuses : List String :=
  ["pending", "in-progress", "completed", "cancelled"]

/-- Category enumeration of `recordSchema.category`. -/
def recordCategories : List String :=
  ["prototype", "production", "research", "maintenance", "other"]

/-- The `validateRecord` express-validator chain: names of the fields whose
check failed (the `details` of a 400). Note that no check relates
`totalQuantity` to `quantities`, and `totalSavings` / `savingsPerProduct`
are not checked at all. -/
def validateRecord (r : JobInput) : List String :=
  (if lenBetween 1 100 r.projectName then [] else ["projectName"]) ++
  (if lenBetween 1 100 r.partName then [] else ["partName"]) ++
  (if lenBetween 1 50 r.partType then [] else ["partType"]) ++
  (if lenBetween 1 50 r.materialUsed then [] else ["materialUsed"]) ++
  (if lenBetween 1 50 r.machineName then [] else ["machineName"]) ++
  (if (0 : ℚ) ≤ r.printingTimeMins then [] else ["printingTimeMins"]) ++
  (if 1 ≤ r.totalQuantity then [] else ["totalQuantity"]) ++
  (if recordStatuses.contains r.status then [] else ["status"]) ++
  (if recordCategories.contains r.category then [] else ["category"])

/-- Mongoose validation of `recordSchema` (required non-empty strings with
their maxlengths, non-negative numeric minima, `totalQuantity ≥ 1`, and the
two enumerations). A `false` here makes `save()` / `runValidators` throw,
which the handlers catch and turn into a 500. -/
def recordSchemaValid (r : JobInput) : Bool :=
  r.date ≠ "" &&
  r.projectName ≠ "" && r.projectName.length ≤ 100 &&
  r.partType ≠ "" && r.partType.length ≤ 50 &&
  r.partSize ≠ "" && r.partSize.length ≤ 50 &&
  r.partName ≠ "" && r.partName.length ≤ 100 &&
  r.application ≠ "" && r.application.length ≤ 200 &&
  r.sharepointLink.length ≤ 500 &&
  r.materialUsed ≠ "" && r.materialUsed.length ≤ 50 &&
  r.machineName ≠ "" && r.machineName.length ≤ 50 &&
  0 ≤ r.printingTimeMins && 0 ≤ r.printingTimeHrs &&
  0 ≤ r.printPrice && 0 ≤ r.electricityCost &&
  0 ≤ r.printCost && 0 ≤ r.oemCost &&
  recordStatuses.contains r.status &&
  recordCategories.contains r.category &&
  0 ≤ r.quantities.bng && 0 ≤ r.quantities.sampling && 0 ≤ r.quantities.rcc &&
  0 ≤ r.quantities.rd && 0 ≤ r.quantities.kaa && 0 ≤ r.quantities.bom &&
  0 ≤ r.quantities.other &&
  1 ≤ r.totalQuantity

/-- Claims carried by the credential
(`jwt.sign({ role: 'admin', timestamp: Date.now() }, JWT_SECRET,
{ expiresIn: '1h' })`): the role, the issue-time stamp, and the standard
`iat` / `exp` fields added by the library. All times in seconds. -/
structure JwtPayload where
  role : String
  timestamp : Int
  iat : Int
  exp : Int
deriving DecidableEq

/-- A decodable JWT: its payload plus its signature, modelled symbolically as
the pair (signing secret, signed payload) an HMAC binds together. -/
structure SignedToken where
  payload : JwtPayload
  sig : String × JwtPayload
deriving DecidableEq

/-- `jwt.sign(payload, secret)`. -/
def jwtSign (secret : String) (p : JwtPayload) : SignedToken := ⟨p, (secret, p)⟩

/-- What arrives in an `Authorization: Bearer x` header: either a string that
does not decode as a JWT at all, or a decodable token. -/
inductive TokenWire where
  | malformed (raw : String)
  | signedTok (t : SignedToken)
deriving DecidableEq

/-- `jwt.verify(token, secret)` at time `now`: fails on undecodable input, a
signature not produced with `secret`, or an expired token (the library
rejects once `now ≥ exp`). -/
def jwtVerify (secret : String) (now : Int) (w : TokenWire) : Option JwtPayload :=
  match w with
  | .malformed _ => none
  | .signedTok t =>
      if t.sig = (secret, t.payload) ∧ now < t.payload.exp then some t.payload else none

/-- The authorization header of a request. `missing` also covers a header
from which `split(' ')[1]` extracts no token. -/
inductive AuthHeader where
  | missing
  | bearer (w : TokenWire)
deriving DecidableEq

/-- The `authenticateToken` middleware: 401 `'Access token required'` without
a bearer token, 401 `'Invalid or expired token'` when `jwt.verify` throws,
otherwise the decoded claims proceed to the handler. -/
def authenticateToken (secret : String) (now : Int) (h : AuthHeader) :
    Except String JwtPayload :=
  match h with
  | .missing => .error "Access token required"
  | .bearer w =>
      match jwtVerify secret now w with
      | some p => .ok p
      | none => .error "Invalid or expired token"

/-- A bcrypt digest, modelled as the salt together with a key derived
injectively from the password. -/
structure BcryptHash where
  salt : String
  key : String
deriving DecidableEq

/-- `bcrypt.hash(password)` under a fixed salt. -/
def bcryptHash (password : String) : BcryptHash := ⟨"$2a$10$fixedsalt", password⟩

/-- `bcrypt.compare(password, hash)`. -/
def bcryptCompare (password : String) (h : BcryptHash) : Bool :=
  h = bcryptHash password

/-- Successful login payload: the issued token and its `expiresAt` time
(one hour after issue). -/
structure LoginOk where
  token : SignedToken
  expiresAt : Int
deriving DecidableEq

/-- The `POST /api/auth/login` handler: 400 when no password is supplied
(`!password` is also true of the empty string), 401 `'Invalid credentials'`
when the bcrypt comparison fails, otherwise a token with role `admin` and a
1-hour expiry. -/
def loginHandler (storedHash : BcryptHash) (secret : String) (now : Int)
    (password : Option String) : ApiResponse LoginOk :=
  match password with
  | none => .badRequest "Password is required"
  | some p =>
      if p = "" then .badRequest "Password is required"
      else if bcryptCompare p storedHash then
        .ok ⟨jwtSign secret ⟨"admin", now, now, now + 3600⟩, now + 3600⟩
      else .authError "Invalid credentials"

/-- The `POST /api/auth/verify` endpoint: `authenticateToken` then echo the
decoded claims. -/
def verifyHandler (secret : String) (now : Int) (h : AuthHeader) :
    ApiResponse JwtPayload :=
  match authenticateToken secret now h with
  | .error e => .authError e
  | .ok p => .ok p

/-- The `GET /api/records` handler: optional `page`, `limit`, `sortBy`,
`sortOrder` query strings. -/
structure RecordsQuery where
  page : Option String := none
  limit : Option String := none
  sortBy : Option String := none
  sortOrder : Option String := none

/-- The `.sort({ [sortBy]: sortOrder === 'desc' ? -1 : 1 })` step. Sorting by
a key other than `createdAt` compares fields outside this model and is
represented as leaving the order unchanged. -/
def sortDocs {α : Type} (key : String) (desc : Bool) (docs : List (Stored α)) :
    List (Stored α) :=
  if key = "createdAt" then
    if desc then List.insertionSort createdGe docs
    else List.insertionSort createdLe docs
  else docs

/-- `GET /api/records`: no authentication middleware, no validation of the
query parameters. -/
def listRecords (store : List (Stored JobInput)) (q : RecordsQuery) :
    ApiResponse (ListPayload JobInput) :=
  paginate
    (sortDocs (q.sortBy.getD "createdAt") ((q.sortOrder.getD "desc") = "desc") store)
    store.length q.page q.limit "Failed to fetch records"

/-- Fresh Mongo `_id` for an insert, modelled as one more than the largest id
in the collection. -/
def freshId {α : Type} (store : List (Stored α)) : Nat :=
  (store.map (·.id)).foldr max 0 + 1

/-- The `POST /api/records` handler: `authenticateToken`, then the
`validateRecord` chain (400 with details on failure), then
`new Record(req.body).save()` — a mongoose validation failure is caught as a
500; on success the body is stored verbatim with both timestamps set to now
and the stored entity is returned with 201. -/
def postRecords (secret : String) (now : Int) (h : AuthHeader)
    (store : List (Stored JobInput)) (body : JobInput) :
    ApiResponse (Stored JobInput) × List (Stored JobInput) :=
  match authenticateToken secret now h with
  | .error e => (.authError e, store)
  | .ok _ =>
      if validateRecord body ≠ [] then (.validationError (validateRecord body), store)
      else if recordSchemaValid body then
        (.createdR ⟨freshId store, body, now, now⟩, store ++ [⟨freshId store, body, now, now⟩])
      else (.serverError "Failed to create record", store)

/-- The `PUT /api/records/:id` handler: `authenticateToken`, the
`validateRecord` chain, then `findByIdAndUpdate(id, {...body, updatedAt},
{ runValidators: true })`. Mongoose runs the update validators before the
query executes, so an invalid body throws (→ 500) whether or not the id
exists; only then is an unknown id reported as 404. On success the matched
document's fields are replaced by the body (its `createdAt` is untouched)
and `updatedAt` is bumped. -/
def putRecords (secret : String) (now : Int) (h : AuthHeader) (rid : Nat)
    (store : List (Stored JobInput)) (body : JobInput) :
    ApiResponse (Stored JobInput) × List (Stored JobInput) :=
  match authenticateToken secret now h with
  | .error e => (.authError e, store)
  | .ok _ =>
      if validateRecord body ≠ [] then (.validationError (validateRecord body), store)
      else if ¬ recordSchemaValid body then (.serverError "Failed to update record", store)
      else
        match store.find? (fun r => r.id == rid) with
        | none => (.notFound "Record not found", store)
        | some old =>
            let upd : Stored JobInput := ⟨rid, body, old.createdAt, now⟩
            (.ok upd, store.map fun r => if r.id == rid then upd else r)

/-- `findByIdAndDelete`: remove the first document with the given id,
`none` when it is absent. -/
def removeById {α : Type} (idOf : α → Nat) (rid : Nat) : List α → Option (List α)
  | [] => none
  | x :: xs =>
      if idOf x == rid then some xs
      else (removeById idOf rid xs).map (x :: ·)

/-- The `DELETE /api/records/:id` handler: `authenticateToken`, then delete
by id — 404 if absent, success acknowledgment otherwise. -/
def deleteRecords (secret : String) (now : Int) (h : AuthHeader) (rid : Nat)
    (store : List (Stored JobInput)) : ApiResponse String × List (Stored JobInput) :=
  match authenticateToken secret now h with
  | .error e => (.authError e, store)
  | .ok _ =>
      match removeById (·.id) rid store with
      | none => (.notFound "Record not found", store)
      | some s1 => (.ok "Record deleted successfully", s1)

/-- A Feedback record as submitted (`saveFeedback`). The client form never
sends a `status`; the empty string models that absence, which mongoose
replaces by the schema default `new` on save. -/
structure FeedbackInput where
  name : String
  partName : String
  email : String
  location : String
  category : String
  subject : String
  message : String
  rating : ℚ
  image : Option String
  status : String
deriving DecidableEq

/-- Category enumeration of `feedbackSchema.category`. -/
def feedbackCategories : List String :=
  ["general", "technical", "complaint", "suggestion", "bug-report"]

/-- Status enumeration of `feedbackSchema.status`. -/
def feedbackStatuses : List String := ["new", "in-review", "resolved", "closed"]

/-- Basic email-shape check modelling `isEmail` and the schema's regex:
exactly one `@`, a non-empty local part, and a dotted non-empty domain. -/
def isEmailShaped (s : String) : Bool :=
  match splitOnChar '@' s.toList with
  | [lpart, domain] =>
      !lpart.isEmpty && !domain.isEmpty &&
      (splitOnChar '.' domain).length ≥ 2 &&
      (splitOnChar '.' domain).all (!·.isEmpty)
  | _ => false

/-- The `isInt({ min: 1, max: 5 })` check on the star rating. -/
def ratingIsIntInRange (q : ℚ) : Bool := q.den == 1 && 1 ≤ q && q ≤ 5

/-- The `validateFeedback` express-validator chain: names of the fields whose
check failed. -/
def validateFeedback (f : FeedbackInput) : List String :=
  (if lenBetween 1 100 f.name then [] else ["name"]) ++
  (if isEmailShaped f.email then [] else ["email"]) ++
  (if lenBetween 1 200 f.subject then [] else ["subject"]) ++
  (if lenBetween 1 1000 f.message then [] else ["message"]) ++
  (if ratingIsIntInRange f.rating then [] else ["rating"]) ++
  (if feedbackCategories.contains f.category then [] else ["category"])

/-- Status actually persisted: the schema default `new` when the body
carried none. -/
def effFeedbackStatus (f : FeedbackInput) : String :=
  if f.status = "" then "new" else f.status

/-- Mongoose validation of `feedbackSchema`. -/
def feedbackSchemaValid (f : FeedbackInput) : Bool :=
  f.name ≠ "" && f.name.length ≤ 100 &&
  f.partName.length ≤ 100 &&
  f.email ≠ "" && f.email.length ≤ 100 && isEmailShaped f.email &&
  f.location ≠ "" && f.location.length ≤ 100 &&
  feedbackCategories.contains f.category &&
  f.subject ≠ "" && f.subject.length ≤ 200 &&
  f.message ≠ "" && f.message.length ≤ 1000 &&
  ratingIsIntInRange f.rating &&
  feedbackStatuses.contains (effFeedbackStatus f)

/-- The `POST /api/feedback` handler. It has no authentication middleware:
the `validateFeedback` chain (400 with details on failure, nothing stored),
then `save()` (mongoose failure → 500, nothing stored), else 201 and the
document is stored with the status default applied. -/
def postFeedback (now : Int) (store : List (Stored FeedbackInput)) (f : FeedbackInput) :
    ApiResponse (Stored FeedbackInput) × List (Stored FeedbackInput) :=
  if validateFeedback f ≠ [] then (.validationError (validateFeedback f), store)
  else if feedbackSchemaValid f then
    let stored : Stored FeedbackInput :=
      ⟨freshId store, { f with status := effFeedbackStatus f }, now, now⟩
    (.createdR stored, store ++ [stored])
  else (.serverError "Failed to submit feedback", store)

/-- The `DELETE /api/feedback/:id` handler: `authenticateToken`, then delete
by id. -/
def deleteFeedback (secret : String) (now : Int) (h : AuthHeader) (rid : Nat)
    (store : List (Stored FeedbackInput)) :
    ApiResponse String × List (Stored FeedbackInput) :=
  match authenticateToken secret now h with
  | .error e => (.authError e, store)
  | .ok _ =>
      match removeById (·.id) rid store with
      | none => (.notFound "Feedback not found", store)
      | some s1 => (.ok "Feedback deleted successfully", s1)

/-- Query of `GET /api/feedback`: `page`, `limit` and an optional `status`
filter (an empty string is falsy in `status ? { status } : {}` and applies
no filter). -/
structure FeedbackQuery where
  page : Option String := none
  limit : Option String := none
  status : Option String := none

/-- The `GET /api/feedback` handler: public, fixed `createdAt` descending
sort, optional status filter. -/
def listFeedback (store : List (Stored FeedbackInput)) (q : FeedbackQuery) :
    ApiResponse (ListPayload FeedbackInput) :=
  let keep : Stored FeedbackInput → Bool := fun d =>
    match q.status with
    | none => true
    | some s => if s = "" then true else d.doc.status == s
  let filtered := store.filter keep
  paginate (List.insertionSort createdGe filtered) filtered.length
    q.page q.limit "Failed to fetch feedback"

/-- A Project record as submitted (`saveProject`). As with feedback, an
empty `status` models an absent field defaulted to `pending` by the schema
(the client actually sends `status: 'pending'` explicitly). -/
structure ProjectInput where
  title : String
  description : String
  priority : String
  location : String
  dueDate : String
  assignedTo : String
  tags : List String
  image : Option String
  status : String
deriving DecidableEq

/-- Priority enumeration of `projectSchema.priority`. -/
def projectPriorities : List String := ["low", "medium", "high", "critical"]

/-- Status enumeration of `projectSchema.status`. -/
def projectStatuses : List String :=
  ["pending", "in-progress", "completed", "cancelled", "on-hold"]

/-- Date-shape check modelling `isISO8601` for the calendar-date strings the
form submits: `YYYY-MM-DD`. -/
def isISODateShaped (s : String) : Bool :=
  match splitOnChar '-' s.toList with
  | [y, m, d] =>
      y.length == 4 && m.length == 2 && d.length == 2 &&
      (y ++ m ++ d).all Char.isDigit
  | _ => false

/-- The `validateProject` express-validator chain. -/
def validateProject (p : ProjectInput) : List String :=
  (if lenBetween 1 200 p.title then [] else ["title"]) ++
  (if lenBetween 1 1000 p.description then [] else ["description"]) ++
  (if projectPriorities.contains p.priority then [] else ["priority"]) ++
  (if lenBetween 1 100 p.location then [] else ["location"]) ++
  (if isISODateShaped p.dueDate then [] else ["dueDate"])

/-- Status actually persisted for a project. -/
def effProjectStatus (p : ProjectInput) : String :=
  if p.status = "" then "pending" else p.status

/-- Mongoose validation of `projectSchema`. -/
def projectSchemaValid (p : ProjectInput) : Bool :=
  p.title ≠ "" && p.title.length ≤ 200 &&
  p.description ≠ "" && p.description.length ≤ 1000 &&
  projectPriorities.contains p.priority &&
  p.location ≠ "" && p.location.length ≤ 100 &&
  p.dueDate ≠ "" &&
  p.assignedTo.length ≤ 100 &&
  p.tags.all (fun t => t.length ≤ 50) &&
  projectStatuses.contains (effProjectStatus p)

/-- The `POST /api/projects` handler: `authenticateToken`, `validateProject`
(400), `save()` (500 on schema failure), else 201. -/
def postProjects (secret : String) (now : Int) (h : AuthHeader)
    (store : List (Stored ProjectInput)) (body : ProjectInput) :
    ApiResponse (Stored ProjectInput) × List (Stored ProjectInput) :=
  match authenticateToken secret now h with
  | .error e => (.authError e, store)
  | .ok _ =>
      if validateProject body ≠ [] then (.validationError (validateProject body), store)
      else if projectSchemaValid body then
        let stored : Stored ProjectInput :=
          ⟨freshId store, { body with status := effProjectStatus body }, now, now⟩
        (.createdR stored, store ++ [stored])
      else (.serverError "Failed to create project", store)

/-- The `PUT /api/projects/:id` handler, mirroring `putRecords`. -/
def putProjects (secret : String) (now : Int) (h : AuthHeader) (rid : Nat)
    (store : List (Stored ProjectInput)) (body : ProjectInput) :
    ApiResponse (Stored ProjectInput) × List (Stored ProjectInput) :=
  match authenticateToken secret now h with
  | .error e => (.authError e, store)
  | .ok _ =>
      if validateProject body ≠ [] then (.validationError (validateProject body), store)
      else if ¬ projectSchemaValid body then (.serverError "Failed to update project", store)
      else
        match store.find? (fun r => r.id == rid) with
        | none => (.notFound "Project not found", store)
        | some old =>
            let upd : Stored ProjectInput := ⟨rid, body, old.createdAt, now⟩
            (.ok upd, store.map fun r => if r.id == rid then upd else r)

/-- The `DELETE /api/projects/:id` handler. -/
def deleteProjects (secret : String) (now : Int) (h : AuthHeader) (rid : Nat)
    (store : List (Stored ProjectInput)) :
    ApiResponse String × List (Stored ProjectInput) :=
  match authenticateToken secret now h with
  | .error e => (.authError e, store)
  | .ok _ =>
      match removeById (·.id) rid store with
      | none => (.notFound "Project not found", store)
      | some s1 => (.ok "Project deleted successfully", s1)

/-- Query of `GET /api/projects`: `page`, `limit` and the optional `status`
and `priority` filters (empty strings are falsy and apply no filter). -/
structure ProjectsQuery where
  page : Option String := none
  limit : Option String := none
  status : Option String := none
  priority : Option String := none

/-- The `GET /api/projects` handler: public, fixed `createdAt` descending
sort, optional filters. -/
def listProjects (store : List (Stored ProjectInput)) (q : ProjectsQuery) :
    ApiResponse (ListPayload ProjectInput) :=
  let keep : Stored ProjectInput → Bool := fun d =>
    (match q.status with
     | none => true
     | some s => if s = "" then true else d.doc.status == s) &&
    (match q.priority with
     | none => true
     | some s => if s = "" then true else d.doc.priority == s)
  let filtered := store.filter keep
  paginate (List.insertionSort createdGe filtered) filtered.length
    q.page q.limit "Failed to fetch projects"

/-- A settings value (`Schema.Types.Mixed`): the shapes the application
stores — numbers, strings, and the arrays of notification ids. -/
inductive SVal where
  | num (x : ℚ)
  | str (s : String)
  | ids (l : List Int)
deriving DecidableEq

/-- The key-value view the `GET /api/settings` reduce builds from the
settings documents: the value of the last document with the given key. -/
def lookupLast : List (String × SVal) → String → Option SVal
  | [], _ => none
  | kv :: rest, k =>
      match lookupLast rest k with
      | some v => some v
      | none => if kv.1 = k then some kv.2 else none

/-- One `Settings.findOneAndUpdate({ key }, { key, value }, { upsert: true })`:
replace the first document with this key, or append a new document. -/
def settingsUpsert (store : List (String × SVal)) (k : String) (v : SVal) :
    List (String × SVal) :=
  match store with
  | [] => [(k, v)]
  | kv :: rest => if kv.1 = k then (k, v) :: rest else kv :: settingsUpsert rest k v

/-- The body of `PUT /api/settings` applied to the store: one upsert per
entry of `Object.entries(settings)`. -/
def applySettingsEntries (store : List (String × SVal))
    (entries : List (String × SVal)) : List (String × SVal) :=
  entries.foldl (fun s kv => settingsUpsert s kv.1 kv.2) store

/-- The `GET /api/settings` handler: public; returns the full key-to-value
mapping. -/
def getSettings (store : List (String × SVal)) :
    ApiResponse (String → Option SVal) :=
  .ok (lookupLast store)

/-- The `PUT /api/settings` handler: `authenticateToken`, then upsert each
listed key independently. -/
def putSettingsEp (secret : String) (now : Int) (h : AuthHeader)
    (store : List (String × SVal)) (entries : List (String × SVal)) :
    ApiResponse String × List (String × SVal) :=
  match authenticateToken secret now h with
  | .error e => (.authError e, store)
  | .ok _ => (.ok "Settings updated successfully", applySettingsEntries store entries)

/-- A Job record as held in the browser's local cache: the client-generated
`id` (`Date.now()`) and the record body. -/
structure ClientRecord where
  id : Nat
  body : JobInput
deriving DecidableEq

/-- The blob `saveToLocalStorage` keeps under the fixed storage key. -/
structure LocalCache where
  records : List ClientRecord
  feedback : List FeedbackInput
  projects : List ProjectInput
deriving DecidableEq

/-- Requests the reconciliation sweep can emit. The feedback and project
constructors never occur in a sweep trace; they exist so that this absence
is expressible. -/
inductive SyncReq where
  | health
  | putRecord (rid : Nat)
  | postRecord (rid : Nat)
  | feedbackPush
  | projectPush
deriving DecidableEq

/-- The message with which the client's `apiRequest` throws for a given
server response, `none` when it does not throw: 2xx succeed, and a 401 is
handled by returning `null` instead of throwing. A 400 from
express-validator carries `error: 'Validation failed'`. -/
def errMessage {α : Type} : ApiResponse α → Option String
  | .ok _ => none
  | .createdR _ => none
  | .authError _ => none
  | .validationError _ => some "Validation failed"
  | .badRequest m => some m
  | .notFound m => some m
  | .serverError m => some m

/-- Substring test used to model `error.message.includes('not found')`. -/
def containsSub (needle : List Char) : List Char → Bool
  | [] => needle.isEmpty
  | c :: cs => needle.isPrefixOf (c :: cs) || containsSub needle cs

/-- The `error.message.includes('not found')` check of `syncWithServer`. -/
def containsNotFound (m : String) : Bool :=
  containsSub "not found".toList m.toList

/-- State threaded through the sweep's `for` loop: the server-side record
collection, the requests emitted so far, and whether an exception has
escaped the inner `catch` (which aborts the loop via the outer `catch`). -/
structure SweepState where
  server : List (Stored JobInput)
  trace : List SyncReq
  aborted : Bool
deriving DecidableEq

/-- One iteration of the sweep loop over a cached record: `PUT /records/:id`;
if `apiRequest` throws and the message contains `'not found'`, fall back to
`POST /records`. An exception from the fall-back `POST` itself is raised
inside the inner `catch` block and therefore aborts the whole sweep. -/
def syncStep (secret : String) (now : Int) (h : AuthHeader)
    (st : SweepState) (r : ClientRecord) : SweepState :=
  if st.aborted then st else
  let res := putRecords secret now h r.id st.server r.body
  let tr1 := st.trace ++ [SyncReq.putRecord r.id]
  match errMessage res.1 with
  | none => ⟨res.2, tr1, false⟩
  | some m =>
      if containsNotFound m then
        let res2 := postRecords secret now h res.2 r.body
        ⟨res2.2, tr1 ++ [SyncReq.postRecord r.id], (errMessage res2.1).isSome⟩
      else ⟨res.2, tr1, false⟩

/-- The client's `syncWithServer`: probe `/health` (failure → outer `catch`
→ `isOnline = false`); read the local cache (absent → return); walk every
cached Job. Returns the final connectivity flag, the server collection, and
the request trace. Feedback and projects in the cache are never touched. -/
def syncWithServer (secret : String) (now : Int) (h : AuthHeader)
    (healthOk : Bool) (server : List (Stored JobInput)) (cache : Option LocalCache) :
    Bool × List (Stored JobInput) × List SyncReq :=
  if ¬ healthOk then (false, server, [SyncReq.health])
  else
    match cache with
    | none => (true, server, [SyncReq.health])
    | some lc =>
        let fin := lc.records.foldl (syncStep secret now h) ⟨server, [SyncReq.health], false⟩
        (!fin.aborted, fin.server, fin.trace)

/-- Trace of one push as the spec words it: an update-by-id, followed by a
create exactly when that update failed with a not-found error. -/
def specPushTrace (secret : String) (now : Int) (h : AuthHeader)
    (server : List (Stored JobInput)) (r : ClientRecord) : List SyncReq :=
  match (putRecords secret now h r.id server r.body).1 with
  | .notFound _ => [SyncReq.putRecord r.id, SyncReq.postRecord r.id]
  | _ => [SyncReq.putRecord r.id]

/-- Server collection after one spec-level push. -/
def specServerAfter (secret : String) (now : Int) (h : AuthHeader)
    (server : List (Stored JobInput)) (r : ClientRecord) : List (Stored JobInput) :=
  match putRecords secret now h r.id server r.body with
  | (.notFound _, s1) => (postRecords secret now h s1 r.body).2
  | (_, s1) => s1

/-- The whole sweep as the spec words it (§4.3): walk every cached Job,
update-by-id first, create exactly on not-found. -/
def specSweep (secret : String) (now : Int) (h : AuthHeader) :
    List (Stored JobInput) → List ClientRecord → List SyncReq
  | _, [] => []
  | server, r :: rs =>
      specPushTrace secret now h server r ++
      specSweep secret now h (specServerAfter secret now h server r) rs

/-- Server collection after the whole spec-level sweep. -/
def specServerEnd (secret : String) (now : Int) (h : AuthHeader) :
    List (Stored JobInput) → List ClientRecord → List (Stored JobInput)
  | server, [] => server
  | server, r :: rs =>
      specServerEnd secret now h (specServerAfter secret now h server r) rs

/-- Sample location counters summing to 3. -/
def sampleQuantities : Quantities := ⟨3, 0, 0, 0, 0, 0, 0⟩

/-- A record body that passes every server-side check although its
client-supplied totals are inconsistent: the counters sum to 3 while
`totalQuantity` is 5, and `totalSavings` is 999 instead of
`totalQuantity * savingsPerProduct = 40`. -/
def badJob : JobInput :=
  { date := "2024-01-01", projectName := "Bracket", partType := "Jig",
    partSize := "10x10", partName := "Clip", application := "Line tooling",
    sharepointLink := "", materialUsed := "PLA", machineName := "Ender-3",
    printingTimeMins := 60, printingTimeHrs := 1, printPrice := 10,
    electricityCost := 2, printCost := 12, oemCost := 20, savingsPerProduct := 8,
    status := "completed", category := "prototype",
    quantities := sampleQuantities, totalQuantity := 5, totalSavings := 999,
    image := none }

/-- The same record body with consistent totals
(`totalQuantity = 3 = sum`, `totalSavings = 3 * 8 = 24`). -/
def goodJob : JobInput :=
  { badJob with totalQuantity := 3, totalSavings := 24 }

/-- A currently-valid admin credential issued at time 0 under the secret
`jwtkey`. -/
def goodHeader : AuthHeader :=
  .bearer (.signedTok (jwtSign "jwtkey" ⟨"admin", 0, 0, 3600⟩))

/-- A 25-document record collection. -/
def store25 : List (Stored JobInput) :=
  (List.range 25).map fun i => ⟨i + 1, badJob, (i : Int), (i : Int)⟩

/-- A pending-local cached Job whose id the server does not know. -/
def pendingJob : ClientRecord := ⟨777, goodJob⟩

/-- A feedback body whose rating 7 fails the `[1,5]` bound while every other
field is valid. -/
def badFeedback : FeedbackInput :=
  { name := "Asha", partName := "Clip", email := "asha@example.com",
    location := "BNG", category := "general", subject := "Fit",
    message := "Too loose", rating := 7, image := none, status := "" }

/-- The same feedback body with a valid rating. -/
def goodFeedback : FeedbackInput := { badFeedback with rating := 4 }

/-- A valid project body. -/
def sampleProject : ProjectInput :=
  { title := "Fixture", description := "Print a camera fixture", priority := "high",
    location := "BNG", dueDate := "2024-02-01", assignedTo := "", tags := [],
    image := none, status := "" }

end PrintAnalytics

deriving instance DecidableEq for Except

namespace PrintAnalytics

theorem postRecords_created_inv (secret : String) (now : Int) (h : AuthHeader)
    (store : List (Stored JobInput)) (body : JobInput) (rec : Stored JobInput)
    (store' : List (Stored JobInput))
    (hc : postRecords secret now h store body = (.createdR rec, store')) :
    rec = ⟨freshId store, body, now, now⟩ ∧ store' = store ++ [rec] := by
  unfold postRecords at hc
  cases hA : authenticateToken secret now h <;> rw [hA] at hc
  · simp at hc
  · by_cases hv : validateRecord body = []
    · by_cases hs : recordSchemaValid body
      · simp [hv, hs] at hc
        exact ⟨hc.1.symm, by rw [← hc.2, hc.1]⟩
      · simp [hv, hs] at hc
    · simp [hv] at hc

theorem putRecords_ok_inv (secret : String) (now : Int) (h : AuthHeader) (rid : Nat)
    (store : List (Stored JobInput)) (body : JobInput) (rec : Stored JobInput)
    (store' : List (Stored JobInput))
    (hc : putRecords secret now h rid store body = (.ok rec, store')) :
    rec.doc = body := by
  unfold putRecords at hc
  cases hA : authenticateToken secret now h <;> rw [hA] at hc
  · simp at hc
  · by_cases hv : validateRecord body = []
    · by_cases hs : recordSchemaValid body
      · simp [hv, hs] at hc
        cases hf : store.find? (fun r => r.id == rid) <;> rw [hf] at hc
        · simp at hc
        · simp at hc
          rw [← hc.1]
      · simp [hv, hs] at hc
    · simp [hv] at hc

/-- C1. The claim is false on the code: this concrete body passes
`validateRecord` and the schema checks and is stored verbatim by
`POST /api/records`, yet its stored `totalQuantity` (5) differs from the
sum of its seven location counters (3) and its stored `totalSavings` (999)
differs from `totalQuantity * savingsPerProduct` (40). -/
theorem record_totals_counterexample :
    postRecords "jwtkey" 0 goodHeader [] badJob =
      (.createdR ⟨1, badJob, 0, 0⟩, [⟨1, badJob, 0, 0⟩]) ∧
    sumQuantities badJob.quantities ≠ badJob.totalQuantity ∧
    badJob.totalSavings ≠ (badJob.totalQuantity : ℚ) * badJob.savingsPerProduct := by
  refine ⟨by decide, by decide, ?_⟩
  show (999 : ℚ) ≠ ((5 : Int) : ℚ) * 8
  norm_num

/-- C1 (amended). The write paths for Job records do not recompute the
totals: a record accepted by create or update is stored with the
client-supplied `quantities`, `totalQuantity`, `savingsPerProduct` and
`totalSavings` verbatim, so the stored record satisfies
`totalQuantity = sum of the seven counters` and
`totalSavings = totalQuantity * savingsPerProduct` exactly when the client
supplied consistent values. -/
theorem record_totals_passthrough (secret : String) (now : Int) (h : AuthHeader)
    (store : List (Stored JobInput)) (body : JobInput) (rec : Stored JobInput)
    (store' : List (Stored JobInput)) :
    (postRecords secret now h store body = (.createdR rec, store') →
       rec.doc = body ∧ store' = store ++ [rec]) ∧
    (∀ rid : Nat, putRecords secret now h rid store body = (.ok rec, store') →
       rec.doc = body) ∧
    (rec.doc = body →
       (sumQuantities body.quantities = body.totalQuantity ∧
          body.totalSavings = (body.totalQuantity : ℚ) * body.savingsPerProduct) →
       sumQuantities rec.doc.quantities = rec.doc.totalQuantity ∧
         rec.doc.totalSavings = (rec.doc.totalQuantity : ℚ) * rec.doc.savingsPerProduct) := by
  refine ⟨fun hc => ?_, fun rid hc => putRecords_ok_inv _ _ _ _ _ _ _ _ hc,
    fun hd hinv => by rw [hd]; exact hinv⟩
  obtain ⟨h1, h2⟩ := postRecords_created_inv _ _ _ _ _ _ _ hc
  exact ⟨by rw [h1], h2⟩

/-- C1 (amended), witness: the create path stores a consistent body
verbatim and the stored record then satisfies both invariants. -/
theorem record_totals_passthrough_witness :
    (⟨1, goodJob, 0, 0⟩ : Stored JobInput).doc = goodJob ∧
      [⟨1, goodJob, 0, 0⟩] = ([] : List (Stored JobInput)) ++ [⟨1, goodJob, 0, 0⟩] :=
  (record_totals_passthrough "jwtkey" 0 goodHeader [] goodJob ⟨1, goodJob, 0, 0⟩
    [⟨1, goodJob, 0, 0⟩]).1 (by decide)

theorem ratingIsIntInRange_iff (q : ℚ) :
    ratingIsIntInRange q = true ↔ ∃ k : ℤ, q = (k : ℚ) ∧ 1 ≤ k ∧ k ≤ 5 := by
  unfold ratingIsIntInRange
  simp only [Bool.and_eq_true, beq_iff_eq, decide_eq_true_eq]
  constructor
  · rintro ⟨⟨hden, h1⟩, h5⟩
    have hq : ((q.num : ℚ)) = q := (Rat.den_eq_one_iff q).mp hden
    refine ⟨q.num, hq.symm, ?_, ?_⟩
    · rw [← hq] at h1; exact_mod_cast h1
    · rw [← hq] at h5; exact_mod_cast h5
  · rintro ⟨k, rfl, h1, h5⟩
    exact ⟨⟨Rat.den_intCast k, by exact_mod_cast h1⟩, by exact_mod_cast h5⟩

theorem rating_mem_validateFeedback (f : FeedbackInput) :
    ("rating" ∈ validateFeedback f) ↔ ratingIsIntInRange f.rating = false := by
  unfold validateFeedback
  split_ifs <;> simp_all

/-- C9. A feedback rating that is not an integer in the closed interval
[1,5] makes `POST /api/feedback` answer 400 with `rating` among the
field-level details and leaves the store unchanged; any integer rating in
[1,5] passes the rating check. -/
theorem feedback_rating_bound (now : Int) (store : List (Stored FeedbackInput))
    (f : FeedbackInput) :
    (¬ (∃ k : ℤ, f.rating = (k : ℚ) ∧ 1 ≤ k ∧ k ≤ 5) →
       postFeedback now store f = (.validationError (validateFeedback f), store) ∧
       "rating" ∈ validateFeedback f) ∧
    ((∃ k : ℤ, f.rating = (k : ℚ) ∧ 1 ≤ k ∧ k ≤ 5) →
       "rating" ∉ validateFeedback f) := by
  constructor
  · intro hk
    have hrb : ratingIsIntInRange f.rating = false := by
      rcases Bool.eq_false_or_eq_true (ratingIsIntInRange f.rating) with hb | hb
      · exact absurd ((ratingIsIntInRange_iff f.rating).mp hb) hk
      · exact hb
    have hmem : "rating" ∈ validateFeedback f := (rating_mem_validateFeedback f).mpr hrb
    have hne : validateFeedback f ≠ [] := fun hnil => by simp [hnil] at hmem
    refine ⟨?_, hmem⟩
    unfold postFeedback
    rw [if_pos hne]
  · intro hk hmem
    have := (rating_mem_validateFeedback f).mp hmem
    rw [(ratingIsIntInRange_iff f.rating).mpr hk] at this
    simp at this

/-- C9, witness: rating 7 is rejected with `rating` in the details and
nothing stored. -/
theorem feedback_rating_bound_witness :
    postFeedback 0 [] badFeedback =
      (.validationError (validateFeedback badFeedback), []) ∧
    "rating" ∈ validateFeedback badFeedback :=
  (feedback_rating_bound 0 [] badFeedback).1 (by
    rintro ⟨k, hk, h1, h5⟩
    have h7 : (7 : ℚ) = (k : ℚ) := hk
    have hk7 : (7 : ℤ) = k := by exact_mod_cast h7
    omega)

theorem paginate_not_validation {α : Type} (sorted : List (Stored α)) (total : Nat)
    (pageP limitP : Option String) (msg : String) :
    (paginate sorted total pageP limitP msg).isValidationErr = false := by
  unfold paginate
  dsimp only
  split <;> rfl

/-- C3. The claim is false on the code: the list handlers validate neither
`page` nor `limit`. A `page` that does not coerce to a number makes the
database query fail, which surfaces as a 500 internal error — not a
validation error — and a `limit` of `0` is passed through to MongoDB as
"no limit" and returns results. -/
theorem list_page_validation_counterexample :
    listRecords [] { page := some "abc" } = .serverError "Failed to fetch records" ∧
    listRecords [⟨1, badJob, 0, 0⟩] { limit := some "0" } =
      .ok ⟨[⟨1, badJob, 0, 0⟩], ⟨some 1, some 0, 1, none⟩⟩ :=
  ⟨by decide, by decide⟩

/-- C3 (amended). Malformed `page` / `limit` values are never rejected with
a validation error: no list endpoint has a validation branch for them, so
every list response is either a success page or a 500 internal error. -/
theorem lists_never_validation_error (rstore : List (Stored JobInput))
    (fstore : List (Stored FeedbackInput)) (pstore : List (Stored ProjectInput))
    (rq : RecordsQuery) (fq : FeedbackQuery) (pq : ProjectsQuery) :
    (listRecords rstore rq).isValidationErr = false ∧
    (listFeedback fstore fq).isValidationErr = false ∧
    (listProjects pstore pq).isValidationErr = false :=
  ⟨paginate_not_validation _ _ _ _ _, paginate_not_validation _ _ _ _ _,
    paginate_not_validation _ _ _ _ _⟩

theorem ceilDivInt_natCast (a : ℤ) (d : ℕ) :
    ceilDivInt a (d : ℤ) = ⌈(a : ℚ) / (d : ℚ)⌉ := by
  unfold ceilDivInt
  rw [← Rat.floor_intCast_div_natCast (-a) d]
  push_cast
  rw [neg_div, Int.floor_neg, neg_neg]


theorem paginate_pos {α : Type} (sorted : List (Stored α)) (total p n : Nat)
    (ps ns : String) (msg : String) (hp : 1 ≤ p) (hn : 1 ≤ n)
    (hps : toNumber ps = some ⟨(p : Int), 0⟩) (hpe : parseIntJS ps = some (p : Int))
    (hns : toNumber ns = some ⟨(n : Int), 0⟩) (hne : parseIntJS ns = some (n : Int)) :
    paginate sorted total (some ps) (some ns) msg =
      .ok ⟨(sorted.drop ((p - 1) * n)).take n,
        ⟨some (p : Int), some (n : Int), total, some ⌈(total : ℚ) / (n : ℚ)⌉⟩⟩ := by
  have e1 : ((p : ℤ) - 1) * (n : ℤ) = (((p - 1) * n : ℕ) : ℤ) := by
    push_cast [Nat.cast_sub hp]
    ring
  have hnz : ¬ ((n : ℤ) == 0) = true := by
    simp only [beq_iff_eq]
    have : n ≠ 0 := Nat.pos_iff_ne_zero.mp hn
    exact_mod_cast this
  simp only [paginate, qnum, jmul, jsub, pagesCount, pageEcho, limitEcho, hps, hns, hpe, hne]
  simp only [DecNum.sub, DecNum.mul, mongoPage, DecNum.isInt, DecNum.nonneg, DecNum.toInt]
  simp only [pow_zero, mul_one, Nat.add_zero, Nat.zero_add, Int.emod_one, beq_self_eq_true,
    Bool.true_and, Bool.and_true, Int.ediv_one]
  rw [e1]
  simp only [Int.toNat_natCast, Int.natAbs_ofNat, hnz, Int.natCast_nonneg, decide_True,
    if_false, if_true, Bool.and_true, Bool.true_and, beq_self_eq_true]
  rw [ceilDivInt_natCast]
  norm_num

theorem paginate_default {α : Type} (sorted : List (Stored α)) (total : Nat) (msg : String) :
    paginate sorted total none none msg =
      .ok ⟨sorted.take 100, ⟨some 1, some 100, total, some ⌈(total : ℚ) / (100 : ℚ)⌉⟩⟩ := by
  simp only [paginate, qnum, jmul, jsub, pagesCount, pageEcho, limitEcho]
  simp only [DecNum.sub, DecNum.mul, mongoPage, DecNum.isInt, DecNum.nonneg, DecNum.toInt]
  norm_num
  rw [show ((100:ℤ)) = ((100:ℕ):ℤ) by norm_num, ceilDivInt_natCast]
  norm_num

theorem listRecords_eq_paginate (store : List (Stored JobInput))
    (pageP limitP : Option String) :
    listRecords store { page := pageP, limit := limitP } =
      paginate (List.insertionSort createdGe store) store.length pageP limitP
        "Failed to fetch records" := by
  simp [listRecords, sortDocs]

theorem listProjects_eq_paginate (store : List (Stored ProjectInput))
    (pageP limitP : Option String) :
    listProjects store { page := pageP, limit := limitP } =
      paginate (List.insertionSort createdGe store) store.length pageP limitP
        "Failed to fetch projects" := by
  simp [listProjects, List.filter_true]

/-- C4. List requests default to page 1, size 100 and `createdAt`-descending
order; for positive integer parameters the returned page is the slice of the
sorted collection skipping `(page-1)*size` documents and taking at most
`size`, together with the total count and `ceil(total/size)` pages — for
Job records (with explicit and with default parameters) and for Projects. -/
theorem list_pagination_slices (store : List (Stored JobInput))
    (pstore : List (Stored ProjectInput)) (p n : Nat) (ps ns : String)
    (hp : 1 ≤ p) (hn : 1 ≤ n)
    (hps : toNumber ps = some ⟨(p : Int), 0⟩) (hpe : parseIntJS ps = some (p : Int))
    (hns : toNumber ns = some ⟨(n : Int), 0⟩) (hne : parseIntJS ns = some (n : Int)) :
    listRecords store { page := some ps, limit := some ns } =
      .ok ⟨((List.insertionSort createdGe store).drop ((p - 1) * n)).take n,
        ⟨some (p : Int), some (n : Int), store.length,
         some ⌈(store.length : ℚ) / (n : ℚ)⌉⟩⟩ ∧
    listRecords store {} =
      .ok ⟨(List.insertionSort createdGe store).take 100,
        ⟨some 1, some 100, store.length, some ⌈(store.length : ℚ) / (100 : ℚ)⌉⟩⟩ ∧
    List.Sorted createdGe (List.insertionSort createdGe store) ∧
    listProjects pstore { page := some ps, limit := some ns } =
      .ok ⟨((List.insertionSort createdGe pstore).drop ((p - 1) * n)).take n,
        ⟨some (p : Int), some (n : Int), pstore.length,
         some ⌈(pstore.length : ℚ) / (n : ℚ)⌉⟩⟩ := by
  refine ⟨?_, ?_, List.sorted_insertionSort _ _, ?_⟩
  · rw [listRecords_eq_paginate]
    exact paginate_pos _ _ _ _ _ _ _ hp hn hps hpe hns hne
  · rw [listRecords_eq_paginate]
    exact paginate_default _ _ _
  · rw [listProjects_eq_paginate]
    exact paginate_pos _ _ _ _ _ _ _ hp hn hps hpe hns hne

/-- C4, witness: page 2 with size 10 on a 25-record collection returns
exactly 10 records and reports 3 pages. -/
theorem list_pagination_slices_witness :
    (listRecords store25 { page := some "2", limit := some "10" } =
      .ok ⟨((List.insertionSort createdGe store25).drop ((2 - 1) * 10)).take 10,
        ⟨some ((2:ℕ) : Int), some ((10:ℕ) : Int), store25.length,
         some ⌈(store25.length : ℚ) / ((10:ℕ) : ℚ)⌉⟩⟩) ∧
    (((List.insertionSort createdGe store25).drop ((2 - 1) * 10)).take 10).length = 10 ∧
    store25.length = 25 ∧
    ⌈(store25.length : ℚ) / ((10:ℕ) : ℚ)⌉ = 3 := by
  refine ⟨(list_pagination_slices store25 [] 2 10 "2" "10" (by norm_num) (by norm_num)
      (by decide) (by decide) (by decide) (by decide)).1, by decide, by decide, ?_⟩
  rw [show (store25.length : ℚ) = ((25:ℕ) : ℚ) by rw [show store25.length = 25 by decide]]
  rw [show ((25:ℕ) : ℚ) = ((25:ℤ) : ℚ) by push_cast; ring]
  rw [← ceilDivInt_natCast 25 10]
  decide


/-- C5. Login with the correct secret issues a signed credential carrying
the admin role and expiring exactly one hour after issue: verify echoes the
decoded claims at any time strictly before the expiry and answers 401 at or
after it, as it does for undecodable tokens and tokens not signed with the
server secret; login with a wrong (non-empty) secret answers the constant
401 `Invalid credentials`, revealing nothing but the failure. -/
theorem auth_login_verify (secret pw : String) (now : Int) (hpw : pw ≠ "") :
    (loginHandler (bcryptHash pw) secret now (some pw) =
       .ok ⟨jwtSign secret ⟨"admin", now, now, now + 3600⟩, now + 3600⟩) ∧
    (∀ t : Int, t < now + 3600 →
       verifyHandler secret t
         (.bearer (.signedTok (jwtSign secret ⟨"admin", now, now, now + 3600⟩))) =
         .ok ⟨"admin", now, now, now + 3600⟩) ∧
    (∀ t : Int, now + 3600 ≤ t →
       verifyHandler secret t
         (.bearer (.signedTok (jwtSign secret ⟨"admin", now, now, now + 3600⟩))) =
         .authError "Invalid or expired token") ∧
    (∀ (t : Int) (raw : String),
       verifyHandler secret t (.bearer (.malformed raw)) =
         .authError "Invalid or expired token") ∧
    (∀ (t : Int) (st : SignedToken), st.sig ≠ (secret, st.payload) →
       verifyHandler secret t (.bearer (.signedTok st)) =
         .authError "Invalid or expired token") ∧
    (∀ p2 : String, p2 ≠ pw → p2 ≠ "" →
       loginHandler (bcryptHash pw) secret now (some p2) =
         .authError "Invalid credentials") := by
  refine ⟨?_, ?_, ?_, ?_, ?_, ?_⟩
  · simp [loginHandler, bcryptCompare, hpw]
  · intro t ht
    simp [verifyHandler, authenticateToken, jwtVerify, jwtSign, ht]
  · intro t ht
    have hc : ¬ (t < now + 3600) := not_lt.mpr ht
    simp [verifyHandler, authenticateToken, jwtVerify, jwtSign, hc]
  · intro t raw
    simp [verifyHandler, authenticateToken, jwtVerify]
  · intro t st hsig
    simp [verifyHandler, authenticateToken, jwtVerify, hsig]
  · intro p2 hne hne2
    simp [loginHandler, bcryptCompare, bcryptHash, hne2]
    intro hcontra
    exact absurd hcontra.symm hne

/-- C5, witness: the concrete admin secret at time 0. -/
theorem auth_login_verify_witness :
    (loginHandler (bcryptHash "3dprinter@aqrl") "jwtkey" 0 (some "3dprinter@aqrl") =
       .ok ⟨jwtSign "jwtkey" ⟨"admin", 0, 0, 0 + 3600⟩, 0 + 3600⟩) ∧
    (∀ t : Int, t < 0 + 3600 →
       verifyHandler "jwtkey" t
         (.bearer (.signedTok (jwtSign "jwtkey" ⟨"admin", 0, 0, 0 + 3600⟩))) =
         .ok ⟨"admin", 0, 0, 0 + 3600⟩) ∧
    (∀ t : Int, 0 + 3600 ≤ t →
       verifyHandler "jwtkey" t
         (.bearer (.signedTok (jwtSign "jwtkey" ⟨"admin", 0, 0, 0 + 3600⟩))) =
         .authError "Invalid or expired token") ∧
    (∀ (t : Int) (raw : String),
       verifyHandler "jwtkey" t (.bearer (.malformed raw)) =
         .authError "Invalid or expired token") ∧
    (∀ (t : Int) (st : SignedToken), st.sig ≠ ("jwtkey", st.payload) →
       verifyHandler "jwtkey" t (.bearer (.signedTok st)) =
         .authError "Invalid or expired token") ∧
    (∀ p2 : String, p2 ≠ "3dprinter@aqrl" → p2 ≠ "" →
       loginHandler (bcryptHash "3dprinter@aqrl") "jwtkey" 0 (some p2) =
         .authError "Invalid credentials") :=
  auth_login_verify "jwtkey" "3dprinter@aqrl" 0 (by decide)


theorem paginate_not_auth {α : Type} (sorted : List (Stored α)) (total : Nat)
    (pageP limitP : Option String) (msg : String) :
    (paginate sorted total pageP limitP msg).isAuthErr = false := by
  unfold paginate
  dsimp only
  split <;> rfl

/-- C6. Without a valid credential (`authenticateToken` rejects the header),
create/update/delete for Jobs and Projects and delete for Feedback all
answer 401 and leave their store unchanged, while Feedback creation and the
three list endpoints carry no authentication middleware: they can never
answer 401, and a valid feedback body is stored. -/
theorem mutations_require_auth (secret : String) (now : Int) (h : AuthHeader) (e : String)
    (rid : Nat) (rstore : List (Stored JobInput)) (fstore : List (Stored FeedbackInput))
    (pstore : List (Stored ProjectInput)) (rbody : JobInput) (pbody : ProjectInput)
    (fbody : FeedbackInput) (rq : RecordsQuery) (fq : FeedbackQuery) (pq : ProjectsQuery)
    (hA : authenticateToken secret now h = .error e) :
    postRecords secret now h rstore rbody = (.authError e, rstore) ∧
    putRecords secret now h rid rstore rbody = (.authError e, rstore) ∧
    deleteRecords secret now h rid rstore = (.authError e, rstore) ∧
    postProjects secret now h pstore pbody = (.authError e, pstore) ∧
    putProjects secret now h rid pstore pbody = (.authError e, pstore) ∧
    deleteProjects secret now h rid pstore = (.authError e, pstore) ∧
    deleteFeedback secret now h rid fstore = (.authError e, fstore) ∧
    ((postFeedback now fstore fbody).1.isAuthErr = false) ∧
    (validateFeedback fbody = [] → feedbackSchemaValid fbody = true →
       (postFeedback now fstore fbody).1 =
         .createdR ⟨freshId fstore, { fbody with status := effFeedbackStatus fbody }, now, now⟩) ∧
    (listRecords rstore rq).isAuthErr = false ∧
    (listFeedback fstore fq).isAuthErr = false ∧
    (listProjects pstore pq).isAuthErr = false := by
  refine ⟨by simp [postRecords, hA], by simp [putRecords, hA], by simp [deleteRecords, hA],
    by simp [postProjects, hA], by simp [putProjects, hA], by simp [deleteProjects, hA],
    by simp [deleteFeedback, hA], ?_, ?_, ?_, ?_, ?_⟩
  · unfold postFeedback
    split
    · rfl
    · split <;> rfl
  · intro hv hs
    simp [postFeedback, hv, hs]
  · unfold listRecords
    exact paginate_not_auth _ _ _ _ _
  · unfold listFeedback
    dsimp only
    exact paginate_not_auth _ _ _ _ _
  · unfold listProjects
    dsimp only
    exact paginate_not_auth _ _ _ _ _

/-- C6, witness: a request with no Authorization header at all. -/
theorem mutations_require_auth_witness :
    postRecords "jwtkey" 0 .missing [] goodJob = (.authError "Access token required", []) ∧
    putRecords "jwtkey" 0 .missing 1 [] goodJob = (.authError "Access token required", []) ∧
    deleteRecords "jwtkey" 0 .missing 1 [] = (.authError "Access token required", []) ∧
    postProjects "jwtkey" 0 .missing [] sampleProject =
      (.authError "Access token required", []) ∧
    putProjects "jwtkey" 0 .missing 1 [] sampleProject =
      (.authError "Access token required", []) ∧
    deleteProjects "jwtkey" 0 .missing 1 [] = (.authError "Access token required", []) ∧
    deleteFeedback "jwtkey" 0 .missing 1 [] = (.authError "Access token required", []) ∧
    ((postFeedback 0 [] goodFeedback).1.isAuthErr = false) ∧
    (validateFeedback goodFeedback = [] → feedbackSchemaValid goodFeedback = true →
       (postFeedback 0 [] goodFeedback).1 =
         .createdR ⟨freshId ([] : List (Stored FeedbackInput)),
           { goodFeedback with status := effFeedbackStatus goodFeedback }, 0, 0⟩) ∧
    (listRecords [] {}).isAuthErr = false ∧
    (listFeedback [] {}).isAuthErr = false ∧
    (listProjects [] {}).isAuthErr = false :=
  mutations_require_auth "jwtkey" 0 .missing "Access token required" 1 [] [] [] goodJob
    sampleProject goodFeedback {} {} {} (by decide)


theorem lookupLast_not_mem (s : List (String × SVal)) (k : String)
    (h : k ∉ s.map Prod.fst) : lookupLast s k = none := by
  induction s with
  | nil => rfl
  | cons kv rest ih =>
    simp only [List.map_cons, List.mem_cons] at h
    push_neg at h
    unfold lookupLast
    rw [ih h.2]
    exact if_neg (fun hh => h.1 hh.symm)

theorem lookupLast_upsert_ne (s : List (String × SVal)) (k : String) (v : SVal)
    (k2 : String) (hne : k2 ≠ k) :
    lookupLast (settingsUpsert s k v) k2 = lookupLast s k2 := by
  induction s with
  | nil => simp [settingsUpsert, lookupLast, Ne.symm hne]
  | cons kv rest ih =>
    by_cases hk : kv.1 = k
    · unfold settingsUpsert
      rw [if_pos hk]
      unfold lookupLast
      cases hl : lookupLast rest k2 <;>
        simp [hl, hk, Ne.symm hne]
    · unfold settingsUpsert
      rw [if_neg hk]
      unfold lookupLast
      rw [ih]

theorem lookupLast_upsert_self (s : List (String × SVal)) (k : String) (v : SVal)
    (hnd : (s.map Prod.fst).Nodup) :
    lookupLast (settingsUpsert s k v) k = some v := by
  induction s with
  | nil => simp [settingsUpsert, lookupLast]
  | cons kv rest ih =>
    simp only [List.map_cons, List.nodup_cons] at hnd
    by_cases hk : kv.1 = k
    · unfold settingsUpsert
      rw [if_pos hk]
      unfold lookupLast
      rw [lookupLast_not_mem rest k (hk ▸ hnd.1)]
      simp
    · unfold settingsUpsert
      rw [if_neg hk]
      unfold lookupLast
      rw [ih hnd.2]

theorem settingsUpsert_keys (s : List (String × SVal)) (k : String) (v : SVal) :
    (settingsUpsert s k v).map Prod.fst =
      if k ∈ s.map Prod.fst then s.map Prod.fst else s.map Prod.fst ++ [k] := by
  induction s with
  | nil => simp [settingsUpsert]
  | cons kv rest ih =>
    by_cases hk : kv.1 = k
    · simp [settingsUpsert, hk]
    · have hcond : (k ∈ (kv :: rest).map Prod.fst) ↔ (k ∈ rest.map Prod.fst) := by
        simp only [List.map_cons, List.mem_cons]
        constructor
        · rintro (h1 | h2)
          · exact absurd h1.symm hk
          · exact h2
        · exact fun hh => Or.inr hh
      have hstep : settingsUpsert (kv :: rest) k v = kv :: settingsUpsert rest k v := by
        conv_lhs => rw [settingsUpsert]
        rw [if_neg hk]
      rw [hstep]
      rw [List.map_cons, ih]
      simp only [hcond]
      by_cases hm : k ∈ rest.map Prod.fst
      · rw [if_pos hm, if_pos hm, List.map_cons]
      · rw [if_neg hm, if_neg hm, List.map_cons, List.cons_append]

theorem settingsUpsert_nodup (s : List (String × SVal)) (k : String) (v : SVal)
    (h : (s.map Prod.fst).Nodup) : ((settingsUpsert s k v).map Prod.fst).Nodup := by
  rw [settingsUpsert_keys]
  by_cases hm : k ∈ s.map Prod.fst
  · simpa [hm]
  · simpa [hm] using List.Nodup.append h (List.nodup_singleton k) (by simpa using hm)

theorem applyEntries_not_mem (s : List (String × SVal))
    (entries : List (String × SVal)) (k : String) (h : k ∉ entries.map Prod.fst) :
    lookupLast (applySettingsEntries s entries) k = lookupLast s k := by
  induction entries generalizing s with
  | nil => rfl
  | cons kv rest ih =>
    simp only [List.map_cons, List.mem_cons] at h
    push_neg at h
    show lookupLast (applySettingsEntries (settingsUpsert s kv.1 kv.2) rest) k = _
    rw [ih _ h.2, lookupLast_upsert_ne _ _ _ _ h.1]

theorem applyEntries_mem (s : List (String × SVal)) (entries : List (String × SVal))
    (hs : (s.map Prod.fst).Nodup) (he : (entries.map Prod.fst).Nodup) :
    ∀ kv ∈ entries, lookupLast (applySettingsEntries s entries) kv.1 = some kv.2 := by
  induction entries generalizing s with
  | nil => simp
  | cons kv0 rest ih =>
    simp only [List.map_cons, List.nodup_cons] at he
    intro kv hkv
    rcases List.mem_cons.mp hkv with rfl | hmem
    · show lookupLast (applySettingsEntries (settingsUpsert s kv.1 kv.2) rest) kv.1 = _
      rw [applyEntries_not_mem _ _ _ (by
        intro hc
        exact he.1 (by simpa using hc))]
      exact lookupLast_upsert_self _ _ _ hs
    · show lookupLast (applySettingsEntries (settingsUpsert s kv0.1 kv0.2) rest) kv.1 = _
      exact ih _ (settingsUpsert_nodup _ _ _ hs) he.2 kv hmem


/-- C7. An authorised settings write upserts exactly the listed keys: the
endpoint applies one upsert per entry, every key not listed keeps its stored
value, and every listed key ends up mapped to its written value. -/
theorem settings_partial_upsert (secret : String) (now : Int) (h : AuthHeader)
    (u : JwtPayload) (store entries : List (String × SVal))
    (hA : authenticateToken secret now h = .ok u)
    (hs : (store.map Prod.fst).Nodup) (he : (entries.map Prod.fst).Nodup) :
    putSettingsEp secret now h store entries =
      (.ok "Settings updated successfully", applySettingsEntries store entries) ∧
    (∀ k, k ∉ entries.map Prod.fst →
       lookupLast (applySettingsEntries store entries) k = lookupLast store k) ∧
    (∀ kv ∈ entries, lookupLast (applySettingsEntries store entries) kv.1 = some kv.2) :=
  ⟨by simp [putSettingsEp, hA], fun k hk => applyEntries_not_mem _ _ _ hk,
    applyEntries_mem _ _ hs he⟩

/-- C7, witness: writing `{investment: 700000}` over a store holding only
`projectIdCounter = 5` leaves `projectIdCounter` untouched and sets
`investment`. -/
theorem settings_partial_upsert_witness :
    (putSettingsEp "jwtkey" 0 goodHeader [("projectIdCounter", .num 5)]
        [("investment", .num 700000)] =
      (.ok "Settings updated successfully",
       applySettingsEntries [("projectIdCounter", .num 5)] [("investment", .num 700000)])) ∧
    lookupLast (applySettingsEntries [("projectIdCounter", .num 5)]
        [("investment", .num 700000)]) "projectIdCounter" = some (.num 5) ∧
    lookupLast (applySettingsEntries [("projectIdCounter", .num 5)]
        [("investment", .num 700000)]) "investment" = some (.num 700000) := by
  obtain ⟨h1, h2, h3⟩ := settings_partial_upsert "jwtkey" 0 goodHeader ⟨"admin", 0, 0, 3600⟩
    [("projectIdCounter", .num 5)] [("investment", .num 700000)]
    (by decide) (by decide) (by decide)
  exact ⟨h1, h2 "projectIdCounter" (by decide), h3 ("investment", .num 700000) (by decide)⟩


theorem removeById_none_iff {α : Type} (idOf : α → Nat) (rid : Nat) (l : List α) :
    removeById idOf rid l = none ↔ rid ∉ l.map idOf := by
  induction l with
  | nil => simp [removeById]
  | cons x xs ih =>
    unfold removeById
    by_cases hx : idOf x = rid
    · simp [hx]
    · simp only [beq_iff_eq, hx, if_false, Option.map_eq_none', ih, List.map_cons,
        List.mem_cons, not_or]
      constructor
      · exact fun hh => ⟨fun hc => hx hc.symm, hh⟩
      · exact fun hh => hh.2

theorem removeById_mem_some {α : Type} (idOf : α → Nat) (rid : Nat) (l : List α)
    (hmem : rid ∈ l.map idOf) : ∃ s1, removeById idOf rid l = some s1 := by
  cases ho : removeById idOf rid l with
  | none => exact absurd ((removeById_none_iff _ _ _).mp ho) (by simpa using hmem)
  | some s1 => exact ⟨s1, rfl⟩

theorem removeById_some_not_mem {α : Type} (idOf : α → Nat) (rid : Nat)
    (l : List α) (s1 : List α) (hnd : (l.map idOf).Nodup)
    (hs : removeById idOf rid l = some s1) : rid ∉ s1.map idOf := by
  induction l generalizing s1 with
  | nil => simp [removeById] at hs
  | cons x xs ih =>
    simp only [List.map_cons, List.nodup_cons] at hnd
    unfold removeById at hs
    by_cases hx : idOf x = rid
    · rw [if_pos (by simpa using hx)] at hs
      cases hs
      exact hx ▸ hnd.1
    · rw [if_neg (by simpa using hx)] at hs
      rcases Option.map_eq_some'.mp hs with ⟨s2, hs2, rfl⟩
      intro hmem
      rw [List.map_cons] at hmem
      rcases List.mem_cons.mp hmem with h1 | h2
      · exact hx h1.symm
      · exact ih s2 hnd.2 hs2 h2

/-- C8. With a valid credential: deleting an id present in the store
succeeds and immediately repeating the delete answers 404, and deleting an
id absent from the store answers 404 leaving it unchanged — for Job records
and for Projects. -/
theorem delete_twice (secret : String) (now : Int) (h : AuthHeader) (u : JwtPayload)
    (rid : Nat) (rstore : List (Stored JobInput)) (pstore : List (Stored ProjectInput))
    (hA : authenticateToken secret now h = .ok u)
    (hr : (rstore.map (·.id)).Nodup) (hp : (pstore.map (·.id)).Nodup) :
    (rid ∈ rstore.map (·.id) →
       ∃ s1, deleteRecords secret now h rid rstore = (.ok "Record deleted successfully", s1) ∧
         deleteRecords secret now h rid s1 = (.notFound "Record not found", s1)) ∧
    (rid ∉ rstore.map (·.id) →
       deleteRecords secret now h rid rstore = (.notFound "Record not found", rstore)) ∧
    (rid ∈ pstore.map (·.id) →
       ∃ s1, deleteProjects secret now h rid pstore = (.ok "Project deleted successfully", s1) ∧
         deleteProjects secret now h rid s1 = (.notFound "Project not found", s1)) ∧
    (rid ∉ pstore.map (·.id) →
       deleteProjects secret now h rid pstore = (.notFound "Project not found", pstore)) := by
  refine ⟨?_, ?_, ?_, ?_⟩
  · intro hmem
    obtain ⟨s1, hs1⟩ := removeById_mem_some (·.id) rid rstore hmem
    refine ⟨s1, ?_, ?_⟩
    · simp [deleteRecords, hA, hs1]
    · have : removeById (·.id) rid s1 = none :=
        (removeById_none_iff _ _ _).mpr (removeById_some_not_mem _ _ _ _ hr hs1)
      simp [deleteRecords, hA, this]
  · intro hmem
    have : removeById (·.id) rid rstore = none := (removeById_none_iff _ _ _).mpr hmem
    simp [deleteRecords, hA, this]
  · intro hmem
    obtain ⟨s1, hs1⟩ := removeById_mem_some (·.id) rid pstore hmem
    refine ⟨s1, ?_, ?_⟩
    · simp [deleteProjects, hA, hs1]
    · have : removeById (·.id) rid s1 = none :=
        (removeById_none_iff _ _ _).mpr (removeById_some_not_mem _ _ _ _ hp hs1)
      simp [deleteProjects, hA, this]
  · intro hmem
    have : removeById (·.id) rid pstore = none := (removeById_none_iff _ _ _).mpr hmem
    simp [deleteProjects, hA, this]

/-- C8, witness: delete twice on a one-record store, delete of an unknown
id, and the same for projects. -/
theorem delete_twice_witness :
    (∃ s1, deleteRecords "jwtkey" 0 goodHeader 5 [⟨5, goodJob, 0, 0⟩] =
        (.ok "Record deleted successfully", s1) ∧
       deleteRecords "jwtkey" 0 goodHeader 5 s1 = (.notFound "Record not found", s1)) ∧
    deleteRecords "jwtkey" 0 goodHeader 6 [⟨5, goodJob, 0, 0⟩] =
      (.notFound "Record not found", [⟨5, goodJob, 0, 0⟩]) ∧
    (∃ s1, deleteProjects "jwtkey" 0 goodHeader 7 [⟨7, sampleProject, 0, 0⟩] =
        (.ok "Project deleted successfully", s1) ∧
       deleteProjects "jwtkey" 0 goodHeader 7 s1 = (.notFound "Project not found", s1)) :=
  ⟨(delete_twice "jwtkey" 0 goodHeader ⟨"admin", 0, 0, 3600⟩ 5 [⟨5, goodJob, 0, 0⟩] []
      (by decide) (by decide) (by decide)).1 (by decide),
   (delete_twice "jwtkey" 0 goodHeader ⟨"admin", 0, 0, 3600⟩ 6 [⟨5, goodJob, 0, 0⟩] []
      (by decide) (by decide) (by decide)).2.1 (by decide),
   (delete_twice "jwtkey" 0 goodHeader ⟨"admin", 0, 0, 3600⟩ 7 []
      [⟨7, sampleProject, 0, 0⟩] (by decide) (by decide) (by decide)).2.2.1 (by decide)⟩

/-- C10. `PUT /api/settings` is behind `authenticateToken`: with a missing,
malformed, or expired bearer credential it answers 401 and the settings
store is unchanged, while `GET /api/settings` has no credential parameter
at all and returns the full mapping. -/
theorem settings_write_requires_auth (secret : String) (now : Int) (h : AuthHeader)
    (e : String) (store entries : List (String × SVal))
    (hA : authenticateToken secret now h = .error e) :
    putSettingsEp secret now h store entries = (.authError e, store) ∧
    authenticateToken secret now .missing = .error "Access token required" ∧
    (∀ raw : String, authenticateToken secret now (.bearer (.malformed raw)) =
       .error "Invalid or expired token") ∧
    (∀ st : SignedToken, st.payload.exp ≤ now →
       authenticateToken secret now (.bearer (.signedTok st)) =
         .error "Invalid or expired token") ∧
    getSettings store = .ok (lookupLast store) := by
  refine ⟨by simp [putSettingsEp, hA], rfl, fun raw => rfl, ?_, rfl⟩
  intro st hexp
  have hc : ¬ (st.sig = (secret, st.payload) ∧ now < st.payload.exp) :=
    fun hcc => absurd hcc.2 (not_lt.mpr hexp)
  simp [authenticateToken, jwtVerify, hc]

/-- C10, witness: a malformed bearer token is rejected by the settings
write. -/
theorem settings_write_requires_auth_witness :
    putSettingsEp "jwtkey" 0 (.bearer (.malformed "zzz")) [("projectIdCounter", .num 5)]
        [("investment", .num 700000)] =
      (.authError "Invalid or expired token", [("projectIdCounter", .num 5)]) ∧
    authenticateToken "jwtkey" 0 .missing = .error "Access token required" ∧
    (∀ raw : String, authenticateToken "jwtkey" 0 (.bearer (.malformed raw)) =
       .error "Invalid or expired token") ∧
    (∀ st : SignedToken, st.payload.exp ≤ 0 →
       authenticateToken "jwtkey" 0 (.bearer (.signedTok st)) =
         .error "Invalid or expired token") ∧
    getSettings [("projectIdCounter", SVal.num 5)] =
      .ok (lookupLast [("projectIdCounter", SVal.num 5)]) :=
  settings_write_requires_auth "jwtkey" 0 (.bearer (.malformed "zzz"))
    "Invalid or expired token" [("projectIdCounter", .num 5)]
    [("investment", .num 700000)] (by decide)


theorem syncStep_spec (secret : String) (now : Int) (h : AuthHeader)
    (server : List (Stored JobInput)) (tr : List SyncReq) (r : ClientRecord) :
    syncStep secret now h ⟨server, tr, false⟩ r =
      ⟨specServerAfter secret now h server r,
       tr ++ specPushTrace secret now h server r, false⟩ := by
  unfold syncStep specServerAfter specPushTrace
  cases hA : authenticateToken secret now h with
  | error e =>
      simp [putRecords, hA, errMessage]
  | ok u =>
      by_cases hv : validateRecord r.body = []
      · by_cases hs : recordSchemaValid r.body
        · cases hf : server.find? (fun x => x.id == r.id) with
          | none =>
              simp [putRecords, hA, hv, hs, hf, errMessage, postRecords,
                show containsNotFound "Record not found" = true from by decide]
          | some old =>
              simp [putRecords, hA, hv, hs, hf, errMessage]
        · simp [putRecords, hA, hv, hs, errMessage,
            show containsNotFound "Failed to update record" = false from by decide]
      · simp [putRecords, hA, hv, errMessage,
          show containsNotFound "Validation failed" = false from by decide]

theorem sweep_fold (secret : String) (now : Int) (h : AuthHeader)
    (rs : List ClientRecord) :
    ∀ (server : List (Stored JobInput)) (tr : List SyncReq),
      rs.foldl (syncStep secret now h) ⟨server, tr, false⟩ =
        ⟨specServerEnd secret now h server rs,
         tr ++ specSweep secret now h server rs, false⟩ := by
  induction rs with
  | nil =>
      intro server tr
      simp [specSweep, specServerEnd]
  | cons r rest ih =>
      intro server tr
      rw [List.foldl_cons, syncStep_spec, ih]
      simp [specSweep, specServerEnd, List.append_assoc]

theorem specPushTrace_put_head (secret : String) (now : Int) (h : AuthHeader)
    (server : List (Stored JobInput)) (r : ClientRecord) :
    SyncReq.putRecord r.id ∈ specPushTrace secret now h server r := by
  unfold specPushTrace
  cases (putRecords secret now h r.id server r.body).1 <;> simp

theorem specPushTrace_shape (secret : String) (now : Int) (h : AuthHeader)
    (server : List (Stored JobInput)) (r : ClientRecord) (q : SyncReq)
    (hq : q ∈ specPushTrace secret now h server r) :
    q = SyncReq.putRecord r.id ∨ q = SyncReq.postRecord r.id := by
  unfold specPushTrace at hq
  cases hres : (putRecords secret now h r.id server r.body).1 <;> rw [hres] at hq <;>
    simp at hq <;> tauto

theorem specSweep_put_mem (secret : String) (now : Int) (h : AuthHeader)
    (rs : List ClientRecord) :
    ∀ server : List (Stored JobInput), ∀ r ∈ rs,
      SyncReq.putRecord r.id ∈ specSweep secret now h server rs := by
  induction rs with
  | nil => simp [specSweep]
  | cons r0 rest ih =>
      intro server r hr
      rcases List.mem_cons.mp hr with rfl | hmem
      · exact List.mem_append_left _ (specPushTrace_put_head secret now h server r)
      · exact List.mem_append_right _ (ih _ r hmem)

theorem specSweep_only_records (secret : String) (now : Int) (h : AuthHeader)
    (rs : List ClientRecord) :
    ∀ server : List (Stored JobInput), ∀ q ∈ specSweep secret now h server rs,
      q ≠ SyncReq.feedbackPush ∧ q ≠ SyncReq.projectPush := by
  induction rs with
  | nil => simp [specSweep]
  | cons r0 rest ih =>
      intro server q hq
      rcases List.mem_append.mp hq with hq1 | hq2
      · rcases specPushTrace_shape secret now h server r0 q hq1 with rfl | rfl
        · exact ⟨by simp, by simp⟩
        · exact ⟨by simp, by simp⟩
      · exact ih _ q hq2

/-- C2. When the health probe succeeds, the sweep sets the connectivity
flag to true and its request trace is exactly `health` followed by the
spec-level sweep: for every cached Job an update-by-id, followed by a
create precisely when that update failed with a not-found error (in
particular no exception ever escapes the loop); every cached Job gets its
update attempt, and no feedback or project request is ever emitted. -/
theorem reconciliation_sweep (secret : String) (now : Int) (h : AuthHeader)
    (server : List (Stored JobInput)) (lc : LocalCache) :
    (syncWithServer secret now h true server (some lc)).1 = true ∧
    (syncWithServer secret now h true server (some lc)).2.2 =
      SyncReq.health :: specSweep secret now h server lc.records ∧
    (∀ r ∈ lc.records,
       SyncReq.putRecord r.id ∈ (syncWithServer secret now h true server (some lc)).2.2) ∧
    (∀ q ∈ (syncWithServer secret now h true server (some lc)).2.2,
       q ≠ SyncReq.feedbackPush ∧ q ≠ SyncReq.projectPush) := by
  have hfold := sweep_fold secret now h lc.records server [SyncReq.health]
  have hsync : syncWithServer secret now h true server (some lc) =
      (true, specServerEnd secret now h server lc.records,
       SyncReq.health :: specSweep secret now h server lc.records) := by
    unfold syncWithServer
    simp [hfold]
  rw [hsync]
  refine ⟨rfl, rfl, ?_, ?_⟩
  · intro r hr
    exact List.mem_cons_of_mem _ (specSweep_put_mem secret now h lc.records server r hr)
  · intro q hq
    rcases List.mem_cons.mp hq with rfl | hmem
    · exact ⟨by simp, by simp⟩
    · exact specSweep_only_records secret now h lc.records server q hmem

/-- C2, witness: one pending-local Job unknown to the server — the sweep
probes health, tries the update, falls back to a create, and ends with the
flag true. -/
theorem reconciliation_sweep_witness :
    ((syncWithServer "jwtkey" 0 goodHeader true [] (some ⟨[pendingJob], [], []⟩)).1 = true ∧
     (syncWithServer "jwtkey" 0 goodHeader true [] (some ⟨[pendingJob], [], []⟩)).2.2 =
       SyncReq.health :: specSweep "jwtkey" 0 goodHeader [] [pendingJob] ∧
     (∀ r ∈ [pendingJob],
        SyncReq.putRecord r.id ∈
          (syncWithServer "jwtkey" 0 goodHeader true [] (some ⟨[pendingJob], [], []⟩)).2.2) ∧
     (∀ q ∈ (syncWithServer "jwtkey" 0 goodHeader true [] (some ⟨[pendingJob], [], []⟩)).2.2,
        q ≠ SyncReq.feedbackPush ∧ q ≠ SyncReq.projectPush)) ∧
    (syncWithServer "jwtkey" 0 goodHeader true [] (some ⟨[pendingJob], [], []⟩)).2.2 =
      [SyncReq.health, SyncReq.putRecord 777, SyncReq.postRecord 777] :=
  ⟨reconciliation_sweep "jwtkey" 0 goodHeader [] ⟨[pendingJob], [], []⟩, by decide⟩

end PrintAnalytics
